import Mathlib

/-!
Verification of the batch-query-and-merge pipeline of `getdata.py`
(The-Magicians-Code/GitLabAPI-AutoData).

The script fetches a CSV of measurement-point references, extracts and
formats the reference column, splits it into chunks, queries a time-series
API once per chunk with a shared time window, column-concatenates the
per-chunk tables, normalizes the time index to `Europe/Tallinn`, and
uploads the result.

Below, each piece of the script is embedded as an executable Lean
definition; the theorems at the end of the file settle the specification
claims against these definitions.
-/

namespace GetData

/-! ## Chunker (line 58 of `getdata.py`)

`sliced_requests = np.array_split(requested_points,
    np.arange(chunk_size, len(requested_points), chunk_size))`
-/

/-- `np.arange(start, stop, step)` for naturals with `step > 0`:
the list `[start, start+step, ...]` of values strictly below `stop`. -/
def arange (start stop step : ℕ) : List ℕ :=
  (List.range ((stop - start + step - 1) / step)).map (fun i => start + step * i)

/-- `np.array_split(l, idxs)`: the sub-lists between consecutive cut
positions, `l[0:i₁], l[i₁:i₂], …, l[iₖ:]` (with slice semantics, which
clamp out-of-range bounds). -/
def arraySplit (l : List α) (idxs : List ℕ) : List (List α) :=
  ((0 :: idxs).zip (idxs ++ [l.length])).map fun p => (l.drop p.1).take (p.2 - p.1)

/-- Line 58: split the requested points into chunks of size `n`
(`np.array_split` at the cut positions `np.arange(n, len, n)`). -/
def sliced_requests (l : List α) (n : ℕ) : List (List α) :=
  arraySplit l (arange n l.length n)

/-! ## IdentifierExtractor (line 56)

`requested_points = df["FromMwAnalogPointRef"].dropna().map('{:.0f}'.format).to_numpy()`

A CSV column is modelled as a list of cells, `none` standing for a NaN
cell (dropped by `dropna`).  Python float formatting with zero decimals
rounds to the nearest integer, ties to even. -/

/-- Python `'{:.0f}'.format` rounding: nearest integer, ties to even.
The fractional part `q - ⌊q⌋` equals `(q.num - ⌊q⌋ * q.den) / q.den`, so
it is compared against `1/2` by comparing twice its numerator with the
denominator. -/
def pyRoundHalfEven (q : ℚ) : ℤ :=
  let f := q.floor
  let r2 := 2 * (q.num - f * q.den)
  if r2 < (q.den : ℤ) then f
  else if (q.den : ℤ) < r2 then f + 1
  else if f % 2 = 0 then f else f + 1

/-- Python `'{:.0f}'.format`: the rounded value printed as a plain
decimal integer string. -/
def formatPoint (q : ℚ) : String := toString (pyRoundHalfEven q)

/-- Line 56: drop the NaN cells of the reference column and format every
remaining value, preserving order. -/
def requested_points (col : List (Option ℚ)) : List String :=
  (col.filterMap id).map formatPoint

/-! ## Time arithmetic

Instants are modelled as integer epoch seconds (the script works at
second precision everywhere: `isoformat(timespec="seconds")`). -/

/-- `pandas.Timestamp.round(freq)`: rounding to the nearest multiple of
`g` seconds, ties to the even multiple.  (`/` and `%` on `ℤ` are euclidean,
i.e. floor semantics for the positive `g` used here.) -/
def pandasRound (t g : ℤ) : ℤ :=
  let q := t / g
  let r := t % g
  if 2 * r < g then q * g
  else if g < 2 * r then (q + 1) * g
  else if q % 2 = 0 then q * g else (q + 1) * g

/-- Lines 63–65: `pd.Timestamp(utcnow() - timedelta(minutes=lb)).round("5T")`
as epoch seconds. -/
def resolveStart (now lb : ℤ) : ℤ := pandasRound (now - lb * 60) 300

/-- The spec's wording of the resolver, for comparison with the code:
`start = round_down(now - lookback, granularity)`, i.e. the greatest
multiple of `g` not exceeding `t` (euclidean `/` floors for `g > 0`). -/
def spec_round_down (t g : ℤ) : ℤ := g * (t / g)

/-- Days-to-civil-date conversion (proleptic Gregorian, day 0 =
1970-01-01); the standard era/year-of-era decomposition. -/
def civilFromDays (z : ℤ) : ℤ × ℤ × ℤ :=
  let z' := z + 719468
  let era := z' / 146097
  let doe := z' - era * 146097
  let yoe := (doe - doe / 1460 + doe / 36524 - doe / 146096) / 365
  let y := yoe + era * 400
  let doy := doe - (365 * yoe + yoe / 4 - yoe / 100)
  let mp := (5 * doy + 2) / 153
  let d := doy - (153 * mp + 2) / 5 + 1
  let m := if mp < 10 then mp + 3 else mp - 9
  (if m ≤ 2 then y + 1 else y, m, d)

/-- Civil-date-to-days conversion, inverse of `civilFromDays`. -/
def daysFromCivil (y m d : ℤ) : ℤ :=
  let y' := if m ≤ 2 then y - 1 else y
  let era := y' / 400
  let yoe := y' - era * 400
  let mp := if 2 < m then m - 3 else m + 9
  let doy := (153 * mp + 2) / 5 + d - 1
  let doe := yoe * 365 + yoe / 4 - yoe / 100 + doy
  era * 146097 + doe - 719468

/-- Epoch seconds of a UTC civil instant. -/
def epochOf (y m d h mi s : ℤ) : ℤ :=
  daysFromCivil y m d * 86400 + h * 3600 + mi * 60 + s

/-- Two-digit zero-padded decimal (for values in `[0, 99]`). -/
def pad2 (n : ℤ) : String :=
  if n < 10 then "0" ++ toString n else toString n

/-- Four-digit zero-padded decimal (for values in `[0, 9999]`). -/
def pad4 (n : ℤ) : String :=
  if n < 10 then "000" ++ toString n
  else if n < 100 then "00" ++ toString n
  else if n < 1000 then "0" ++ toString n
  else toString n

/-- `isoformat(timespec="seconds")` of a naive timestamp held as epoch
seconds: `YYYY-MM-DDTHH:MM:SS`, no fractional seconds, no offset suffix. -/
def isoRender (t : ℤ) : String :=
  let days := t / 86400
  let sod := t - days * 86400
  let c := civilFromDays days
  pad4 c.1 ++ "-" ++ pad2 c.2.1 ++ "-" ++ pad2 c.2.2 ++ "T" ++
    pad2 (sod / 3600) ++ ":" ++ pad2 (sod % 3600 / 60) ++ ":" ++ pad2 (sod % 60)

/-- Length of a month in the proleptic Gregorian calendar. -/
def monthLength (y m : ℤ) : ℤ :=
  if m = 2 then (if y % 4 = 0 ∧ (y % 100 ≠ 0 ∨ y % 400 = 0) then 29 else 28)
  else if m = 4 ∨ m = 6 ∨ m = 9 ∨ m = 11 then 30 else 31

/-- Day number of the last Sunday of a month (day 0 = 1970-01-01, a
Thursday, so day `z` is a Sunday iff `(z + 4) % 7 = 0`). -/
def lastSundayDays (y m : ℤ) : ℤ :=
  let last := daysFromCivil y m (monthLength y m)
  last - (last + 4) % 7

/-- UTC offset of `Europe/Tallinn` in seconds at a given instant:
EET (+02:00), switching to EEST (+03:00) between the last Sundays of
March and October at 01:00 UTC (the EU DST rule used by the tz database
for the years this script runs in). -/
def tallinnOffset (t : ℤ) : ℤ :=
  let y := (civilFromDays (t / 86400)).1
  let dstStart := lastSundayDays y 3 * 86400 + 3600
  let dstEnd := lastSundayDays y 10 * 86400 + 3600
  if dstStart ≤ t ∧ t < dstEnd then 10800 else 7200

/-- Lines 98–100: `tz_convert("Europe/Tallinn").tz_localize(None)`
followed by `isoformat(timespec="seconds")` — the instant's Tallinn
wall-clock time rendered without any offset suffix. -/
def normalizeTs (t : ℤ) : String := isoRender (t + tallinnOffset t)

/-- `±HH:MM` offset suffix of an ISO-8601 timestamp. -/
def offsetSuffix (off : ℤ) : String :=
  (if off < 0 then "-" else "+") ++
    pad2 ((off.natAbs : ℤ) / 3600) ++ ":" ++ pad2 ((off.natAbs : ℤ) % 3600 / 60)

/-- A timezone-aware ISO-8601 rendering of an instant at a given UTC
offset: the local wall clock followed by the offset suffix. -/
def isoRenderOffset (t off : ℤ) : String := isoRender (t + off) ++ offsetSuffix off

/-! ## Tables (the `pd.DataFrame` results and `pd.concat(..., axis=1)`) -/

/-- A per-batch result table: a row index of timestamps (epoch seconds)
and named columns whose value lists are aligned with the index, `none`
standing for a missing (NaN) cell. -/
structure Table where
  index : List ℤ
  cols : List (String × List (Option ℚ))
deriving DecidableEq

/-- Cell of a column at a row label: the value aligned with the first
occurrence of `k` in the index, `none` when the label is absent. -/
def cellAt (idx : List ℤ) (vals : List (Option ℚ)) (k : ℤ) : Option ℚ :=
  ((idx.zip vals).lookup k).join

/-- The union row index produced by `pd.concat(axis=1)` on differing
indexes: every label of every input, deduplicated and sorted. -/
def unionIndex (ts : List Table) : List ℤ :=
  ((ts.flatMap fun t => t.index).dedup).insertionSort (· ≤ ·)

/-- Line 96: `pd.concat(results, axis=1)` — outer-align all tables on
their row index and concatenate their columns in input order, leaving
missing cells where a table lacks a row. -/
def concatTables (ts : List Table) : Table :=
  let idx := unionIndex ts
  { index := idx
    cols := ts.flatMap fun t =>
      t.cols.map fun c => (c.1, idx.map fun k => cellAt t.index c.2 k) }

/-! ## QueryDispatcher (lines 80–93) -/

/-- A raw API response body: either text that is not well-formed JSON, or
a parsed JSON object given as its top-level fields. -/
inductive ApiBody where
  | malformed (raw : String)
  | json (fields : List (String × Table))
deriving DecidableEq

/-- The errors the run can terminate with: the `ValueError` raised at
lines 88–90 (carrying the time window, the raw body and the config-path
hint), the bare `KeyError` escaping from `isr_response.json()["data"]`
when the parsed body has no `data` field, and the pandas `TypeError`
escaping from `tz_convert` at line 98 when the merged index is tz-naive
(which an empty merged index always is). -/
inductive RunError where
  | valueError (startTime endTime raw cfgPath : String)
  | keyError (key : String)
  | typeError (msg : String)
deriving DecidableEq

/-- A single-quote character, as used by Python `repr` in messages. -/
def sq : String := (Char.ofNat 39).toString

/-- Wrap a string in single quotes. -/
def squote (s : String) : String := sq ++ s ++ sq

/-- The message a `RunError` prints: the `ValueError` f-string of lines
88–90, Python's `str(KeyError(k))` (the quoted key), and the pandas
`TypeError` text respectively. -/
def errMessage : RunError → String
  | .valueError s e raw cfg =>
      "Could not receive data from the server at current time: (" ++
        squote s ++ ", " ++ squote e ++ ")\n" ++ raw ++
        "\nChange timedelta in " ++ cfg
  | .keyError k => squote k
  | .typeError m => m

/-- Lines 84–90: `isr_response.json()["data"]` under
`except requests.exceptions.JSONDecodeError`.  A non-JSON body raises the
descriptive `ValueError`; a JSON body without a `data` field raises a bare
`KeyError` (which the `except` clause does not catch). -/
def fetchData (w : String × String) (cfg : String) (b : ApiBody) :
    Except RunError Table :=
  match b with
  | .malformed raw => .error (.valueError w.1 w.2 raw cfg)
  | .json fields =>
    match fields.lookup "data" with
    | some t => .ok t
    | none => .error (.keyError "data")

/-- Whether a response body parses as JSON and carries a `data` field,
i.e. whether `fetchData` succeeds on it. -/
def parsesOk : ApiBody → Bool
  | .malformed _ => false
  | .json fields => (fields.lookup "data").isSome

/-! ## The request loop (lines 62–93) -/

/-- The `params` dictionary: `start_time` fixed at construction (line 62),
`end_time` initially absent (commented out in the source), `scada_point`
reassigned each iteration. -/
structure Params where
  start_time : String
  end_time : Option String
  scada_point : List String
deriving DecidableEq

/-- One dispatched query: the URL parameters at the moment of the
`requests.get` of line 84. -/
structure Query where
  start_time : String
  end_time : String
  scada_point : List String
deriving DecidableEq

/-- Lines 74–77: assign the batch to `params["scada_point"]` and, when
`"end_time" not in params`, set `params["end_time"] = params["start_time"]`. -/
def loopStep (p : Params) (points : List String) : Params :=
  if p.end_time.isNone then
    { p with scada_point := points, end_time := some p.start_time }
  else
    { p with scada_point := points }

/-- The query URL built at line 80 from the current `params`. -/
def mkQuery (p : Params) : Query :=
  { start_time := p.start_time
    end_time := p.end_time.getD p.start_time
    scada_point := p.scada_point }

/-- Lines 72–93: iterate over the chunks; for chunk `i` dispatch a query
and parse the response `responses i`.  On a parse failure the exception
aborts the loop (and the whole run); otherwise the table is appended to
`results`.  Returns the dispatched queries and either the collected
tables or the terminating error. -/
def runLoop (cfg : String) (responses : ℕ → ApiBody) :
    Params → ℕ → List (List String) → List Query × Except RunError (List Table)
  | _, _, [] => ([], .ok [])
  | p, i, pts :: rest =>
    let p2 := loopStep p pts
    let q := mkQuery p2
    match fetchData (q.start_time, q.end_time) cfg (responses i) with
    | .error e => ([q], .error e)
    | .ok tbl =>
      let next := runLoop cfg responses p2 (i + 1) rest
      (q :: next.1, next.2.map (fun ts => tbl :: ts))

/-- Lines 62–69: the initial `params` dictionary, built once from a single
`datetime.datetime.utcnow()` reading (`clock 0`). -/
def initParams (clock : ℕ → ℤ) (lb : ℤ) : Params :=
  { start_time := isoRender (resolveStart (clock 0) lb)
    end_time := none
    scada_point := [] }

/-! ## ResultMerger output and the whole run (lines 96–117) -/

/-- The final table: the merged columns under a normalized, named string
index (lines 98–102). -/
structure FinalTable where
  indexName : String
  index : List String
  cols : List (String × List (Option ℚ))
deriving DecidableEq

/-- Lines 96–102: concatenate the per-batch tables column-wise, convert
the index to Tallinn wall-clock text and name it `"Europe/Tallinn"`.
Line 98's `pd.to_datetime(...).tz_convert("Europe/Tallinn")` raises
`TypeError` on a tz-naive index; the index entries of a non-empty table
model tz-aware instants, but an empty merged index is always naive
(`pd.to_datetime` of an empty index carries no timezone), so the empty
case raises instead of publishing. -/
def endresult (results : List Table) : Except RunError FinalTable :=
  let merged := concatTables results
  if merged.index = [] then
    .error (.typeError
      "Cannot convert tz-naive timestamps, use tz_localize to localize")
  else
    .ok { indexName := "Europe/Tallinn"
          index := merged.index.map normalizeTs
          cols := merged.cols }

/-- What a run produces: the queries that were actually dispatched, and
either the final (published) table or the error that terminated the run
before the merge and upload of lines 96–117. -/
structure RunResult where
  queries : List Query
  outcome : Except RunError FinalTable

/-- The whole script run (lines 54–117) as a function of its inputs: the
reference CSV column, the configured chunk size and look-back minutes, the
wall clock (`clock k` is the `k`-th `utcnow()` reading), the API responses
per dispatched query, and the configuration-file path. -/
def runScript (col : List (Option ℚ)) (chunkSize : ℕ) (clock : ℕ → ℤ)
    (lb : ℤ) (responses : ℕ → ApiBody) (cfg : String) : RunResult :=
  let pts := requested_points col
  let sliced := sliced_requests pts chunkSize
  let r := runLoop cfg responses (initParams clock lb) 0 sliced
  { queries := r.1, outcome := r.2.bind (fun tables => endresult tables) }

/-! ## Chunker lemmas -/

theorem arraySplit_nil (l : List α) : arraySplit l [] = [l] := by
  simp [arraySplit]

/-- Splitting at cut positions that all sit at least `n` in: the first
piece is `l[0:n]` and the rest is the split of `l[n:]` at the shifted
positions. -/
theorem arraySplit_shift (l : List α) (n : ℕ) (is : List ℕ)
    (h : n ≤ l.length) :
    arraySplit l (n :: is.map (fun j => j + n)) =
      l.take n :: arraySplit (l.drop n) is := by
  unfold arraySplit
  simp only [List.cons_append, List.zip_cons_cons, List.map_cons,
    Nat.sub_zero, List.drop_zero, List.length_drop]
  refine congrArg₂ List.cons rfl ?_
  have e1 : n :: is.map (fun j => j + n) = (0 :: is).map (fun j => j + n) := by
    simp
  have e2 : is.map (fun j => j + n) ++ [l.length] =
      (is ++ [l.length - n]).map (fun j => j + n) := by
    rw [List.map_append]
    simp only [List.map_cons, List.map_nil]
    have : l.length - n + n = l.length := by omega
    rw [this]
  calc ((n :: is.map (fun j => j + n)).zip
          (is.map (fun j => j + n) ++ [l.length])).map
        (fun p => (l.drop p.1).take (p.2 - p.1))
      = (((0 :: is).map (fun j => j + n)).zip
          ((is ++ [l.length - n]).map (fun j => j + n))).map
        (fun p => (l.drop p.1).take (p.2 - p.1)) := by rw [← e1, ← e2]
    _ = ((0 :: is).zip (is ++ [l.length - n])).map
        (fun p => ((l.drop n).drop p.1).take (p.2 - p.1)) := by
        rw [List.zip_map]
        rw [List.map_map]
        apply List.map_congr_left
        intro p _
        rcases p with ⟨a, b⟩
        simp only [Function.comp_apply, Prod.map_apply]
        rw [List.drop_drop]
        have e3 : b + n - (a + n) = b - a := by omega
        have e4 : a + n = n + a := by omega
        rw [e3, e4]

theorem arange_eq_nil (start stop step : ℕ) (h : stop ≤ start) :
    arange start stop step = [] := by
  unfold arange
  have h1 : stop - start = 0 := Nat.sub_eq_zero_of_le h
  rw [h1]
  rcases Nat.eq_zero_or_pos step with hs | hs
  · subst hs; simp
  · have : (0 + step - 1) / step = 0 := by
      apply Nat.div_eq_of_lt; omega
    rw [this]; simp

theorem sliced_requests_of_le (l : List α) (n : ℕ) (_hn : 0 < n)
    (h : l.length ≤ n) : sliced_requests l n = [l] := by
  unfold sliced_requests
  rw [arange_eq_nil _ _ _ h, arraySplit_nil]

theorem arange_step_cons (n stop : ℕ) (hn : 0 < n) (h : n < stop) :
    arange n stop n = n :: (arange n (stop - n) n).map (fun j => j + n) := by
  unfold arange
  have hk : (stop - n + n - 1) / n = (stop - n - 1) / n + 1 := by
    have h1 : stop - n + n - 1 = (stop - n - 1) + n := by omega
    rw [h1, Nat.add_div_right _ hn]
  have hk2 : (stop - n - n + n - 1) / n = (stop - n - 1) / n := by
    rcases le_or_lt n (stop - n) with hc | hc
    · congr 1; omega
    · rw [Nat.div_eq_of_lt (by omega), Nat.div_eq_of_lt (by omega)]
  rw [hk, hk2, List.range_succ_eq_map]
  simp only [List.map_cons, List.map_map, Nat.mul_zero, Nat.add_zero]
  refine congrArg (List.cons n) ?_
  apply List.map_congr_left
  intro i _
  simp only [Function.comp_apply, Nat.mul_succ, Nat.succ_eq_add_one]
  ring

theorem sliced_requests_step (l : List α) (n : ℕ) (hn : 0 < n)
    (h : n < l.length) :
    sliced_requests l n = l.take n :: sliced_requests (l.drop n) n := by
  unfold sliced_requests
  rw [arange_step_cons n l.length hn h, arraySplit_shift l n _ (le_of_lt h)]
  congr 2
  simp

/-- Core invariants of the chunker, by strong induction on list length:
the chunks concatenate back to the input, each chunk is at most `n` long,
and at most one chunk is strictly shorter than `n`. -/
theorem sliced_requests_invariants (n : ℕ) (hn : 0 < n) :
    ∀ l : List α, l ≠ [] →
      (sliced_requests l n).flatten = l ∧
      (∀ c ∈ sliced_requests l n, c.length ≤ n) ∧
      (sliced_requests l n).countP (fun c => decide (c.length < n)) ≤ 1 := by
  suffices H : ∀ N : ℕ, ∀ l : List α, l.length ≤ N → l ≠ [] →
      (sliced_requests l n).flatten = l ∧
      (∀ c ∈ sliced_requests l n, c.length ≤ n) ∧
      (sliced_requests l n).countP (fun c => decide (c.length < n)) ≤ 1 by
    intro l hne
    exact H l.length l le_rfl hne
  intro N
  induction N with
  | zero =>
    intro l hlen hne
    exact absurd (List.eq_nil_of_length_eq_zero (Nat.le_zero.mp hlen)) hne
  | succ N ih =>
    intro l hlen hne
    rcases le_or_lt l.length n with hle | hlt
    · rw [sliced_requests_of_le l n hn hle]
      refine ⟨by simp, ?_, ?_⟩
      · intro c hc
        simp at hc; subst hc; exact hle
      · simp only [List.countP_cons, List.countP_nil, Nat.zero_add]
        cases decide (l.length < n) <;> simp
    · rw [sliced_requests_step l n hn hlt]
      have hdlen : (l.drop n).length = l.length - n := by simp
      have hdrop_ne : l.drop n ≠ [] := by
        intro hd
        rw [hd] at hdlen; simp at hdlen; omega
      have ihd := ih (l.drop n) (by omega) hdrop_ne
      obtain ⟨ihflat, ihle, ihcount⟩ := ihd
      refine ⟨?_, ?_, ?_⟩
      · simp only [List.flatten_cons, ihflat, List.take_append_drop]
      · intro c hc
        rcases List.mem_cons.mp hc with hc | hc
        · subst hc; simp
        · exact ihle c hc
      · rw [List.countP_cons]
        have htake : decide ((l.take n).length < n) = false := by
          simp [List.length_take]; omega
        rw [htake]
        simpa using ihcount

/-- The chunker on the empty list: `np.arange(n, 0, n)` is empty, and
`np.array_split` of any array at an empty cut list yields one (empty) piece. -/
theorem sliced_requests_nil (n : ℕ) (hn : 0 < n) :
    sliced_requests ([] : List α) n = [[]] := by
  rw [sliced_requests_of_le _ _ hn (by simp)]

/-! ## Merger lemmas -/

theorem mem_unionIndex (ts : List Table) (k : ℤ) :
    k ∈ unionIndex ts ↔ ∃ t ∈ ts, k ∈ t.index := by
  unfold unionIndex
  rw [(List.perm_insertionSort (· ≤ ·) _).mem_iff, List.mem_dedup,
    List.mem_flatMap]

theorem cellAt_not_mem : ∀ (idx : List ℤ) (vals : List (Option ℚ)) (k : ℤ),
    k ∉ idx → cellAt idx vals k = none := by
  intro idx
  induction idx with
  | nil => intro vals k _; simp [cellAt]
  | cons a idx' ih =>
    intro vals k h
    cases vals with
    | nil => simp [cellAt]
    | cons v vals' =>
      have hka : (k == a) = false :=
        beq_eq_false_iff_ne.mpr (fun hk => h (hk ▸ List.mem_cons_self a idx'))
      have hk' : k ∉ idx' := fun hk => h (List.mem_cons_of_mem a hk)
      show (List.lookup k ((a, v) :: idx'.zip vals')).join = none
      simp only [List.lookup, hka]
      exact ih vals' k hk'

theorem cellAt_get : ∀ (idx : List ℤ) (vals : List (Option ℚ)),
    idx.Nodup → ∀ (i : ℕ) (h : i < idx.length),
    cellAt idx vals (idx.get ⟨i, h⟩) = (vals.get? i).join := by
  intro idx
  induction idx with
  | nil => intro vals _ i h; simp at h
  | cons a idx' ih =>
    intro vals hnd i h
    have hnd' : idx'.Nodup := (List.nodup_cons.mp hnd).2
    have hna : a ∉ idx' := (List.nodup_cons.mp hnd).1
    cases vals with
    | nil =>
      have hcell : cellAt (a :: idx') [] ((a :: idx').get ⟨i, h⟩) = none := by
        simp [cellAt]
      rw [hcell]; simp
    | cons v vals' =>
      cases i with
      | zero =>
        show (List.lookup a ((a, v) :: idx'.zip vals')).join = _
        simp [List.lookup]
      | succ i' =>
        have h' : i' < idx'.length := by simpa using Nat.lt_of_succ_lt_succ h
        have hkey : (a :: idx').get ⟨i' + 1, h⟩ = idx'.get ⟨i', h'⟩ := rfl
        have hne : (idx'.get ⟨i', h'⟩ == a) = false :=
          beq_eq_false_iff_ne.mpr (fun he => hna (he ▸ List.get_mem idx' i' h'))
        rw [hkey]
        show (List.lookup (idx'.get ⟨i', h'⟩) ((a, v) :: idx'.zip vals')).join = _
        simp only [List.lookup, hne]
        exact ih vals' hnd' i' h'

/-! ## Dispatcher and loop lemmas -/

theorem fetchData_error_of_not_parses (w : String × String) (cfg : String)
    (b : ApiBody) (h : parsesOk b = false) :
    ∃ e, fetchData w cfg b = .error e := by
  cases b with
  | malformed raw => exact ⟨_, rfl⟩
  | json fields =>
    cases hl : fields.lookup "data" with
    | some t => simp [parsesOk, hl] at h
    | none => exact ⟨.keyError "data", by simp [fetchData, hl]⟩

theorem fetchData_ok_of_parses (w : String × String) (cfg : String)
    (b : ApiBody) (h : parsesOk b = true) :
    ∃ t, fetchData w cfg b = .ok t := by
  cases b with
  | malformed raw => simp [parsesOk] at h
  | json fields =>
    cases hl : fields.lookup "data" with
    | none => simp [parsesOk, hl] at h
    | some t => exact ⟨t, by simp [fetchData, hl]⟩

theorem loopStep_start (p : Params) (pts : List String) :
    (loopStep p pts).start_time = p.start_time := by
  unfold loopStep
  split <;> rfl

theorem loopStep_end (p : Params) (pts : List String) (s : String)
    (hs : p.start_time = s) (he : p.end_time = none ∨ p.end_time = some s) :
    (loopStep p pts).end_time = some s := by
  unfold loopStep
  rcases he with he | he <;> simp [he, hs]

/-- Every query the loop dispatches carries the `start_time` the `params`
dictionary was built with, also as its `end_time`. -/
theorem runLoop_window (cfg : String) (resp : ℕ → ApiBody) (s : String) :
    ∀ bs : List (List String), ∀ p : Params, ∀ i : ℕ,
      p.start_time = s → (p.end_time = none ∨ p.end_time = some s) →
      ∀ q ∈ (runLoop cfg resp p i bs).1, q.start_time = s ∧ q.end_time = s := by
  intro bs
  induction bs with
  | nil => intro p i _ _ q hq; simp [runLoop] at hq
  | cons pts rest ih =>
    intro p i hs he q hq
    have hstart : (loopStep p pts).start_time = s := by
      rw [loopStep_start, hs]
    have hend : (loopStep p pts).end_time = some s := loopStep_end p pts s hs he
    have hq0 : (mkQuery (loopStep p pts)).start_time = s ∧
        (mkQuery (loopStep p pts)).end_time = s := by
      constructor
      · exact hstart
      · simp [mkQuery, hend]
    rw [runLoop] at hq
    rcases hfd : fetchData ((mkQuery (loopStep p pts)).start_time,
        (mkQuery (loopStep p pts)).end_time) cfg (resp i) with e | tbl
    · rw [hfd] at hq
      simp at hq
      exact hq ▸ hq0
    · rw [hfd] at hq
      simp at hq
      rcases hq with hq | hq
      · exact hq ▸ hq0
      · exact ih (loopStep p pts) (i + 1) hstart (Or.inr hend) q hq

/-- If the responses for the first `j` dispatched queries parse and the
response for query `j` does not, the loop dispatches exactly `j + 1`
queries and aborts with the parse error. -/
theorem runLoop_first_error (cfg : String) (resp : ℕ → ApiBody) :
    ∀ bs : List (List String), ∀ p : Params, ∀ i j : ℕ,
      j < bs.length →
      (∀ m, m < j → parsesOk (resp (i + m)) = true) →
      parsesOk (resp (i + j)) = false →
      (runLoop cfg resp p i bs).1.length = j + 1 ∧
      ∃ e, (runLoop cfg resp p i bs).2 = .error e := by
  intro bs
  induction bs with
  | nil => intro p i j hj; simp at hj
  | cons pts rest ih =>
    intro p i j hj hok hfail
    cases j with
    | zero =>
      obtain ⟨e, he⟩ := fetchData_error_of_not_parses
        ((mkQuery (loopStep p pts)).start_time,
          (mkQuery (loopStep p pts)).end_time) cfg (resp i)
        (by simpa using hfail)
      rw [runLoop, he]
      exact ⟨rfl, e, rfl⟩
    | succ j' =>
      obtain ⟨t, ht⟩ := fetchData_ok_of_parses
        ((mkQuery (loopStep p pts)).start_time,
          (mkQuery (loopStep p pts)).end_time) cfg (resp i)
        (by simpa using hok 0 (Nat.succ_pos j'))
      have ihr := ih (loopStep p pts) (i + 1) j'
        (by simpa using Nat.lt_of_succ_lt_succ hj)
        (fun m hm => by
          have := hok (m + 1) (Nat.succ_lt_succ hm)
          simpa [Nat.add_assoc, Nat.add_comm 1 m] using this)
        (by
          have : i + (j' + 1) = i + 1 + j' := by omega
          rw [← this]; exact hfail)
      rw [runLoop, ht]
      refine ⟨?_, ?_⟩
      · simpa using ihr.1
      · obtain ⟨e, he⟩ := ihr.2
        exact ⟨e, by dsimp only; rw [he]; rfl⟩

theorem pandasRound_near (t : ℤ) :
    pandasRound t 300 % 300 = 0 ∧ 2 * |t - pandasRound t 300| ≤ 300 := by
  have h1 : 300 * (t / 300) + t % 300 = t := Int.ediv_add_emod t 300
  have h2 : 0 ≤ t % 300 := Int.emod_nonneg t (by norm_num)
  have h3 : t % 300 < 300 := Int.emod_lt_of_pos t (by norm_num)
  unfold pandasRound
  dsimp only
  split_ifs with ha hb hc
  · refine ⟨Int.mul_emod_left _ _, ?_⟩
    have : |t - t / 300 * 300| ≤ 150 := abs_le.mpr ⟨by omega, by omega⟩
    linarith
  · refine ⟨Int.mul_emod_left _ _, ?_⟩
    have : |t - (t / 300 + 1) * 300| ≤ 150 := abs_le.mpr ⟨by omega, by omega⟩
    linarith
  · refine ⟨Int.mul_emod_left _ _, ?_⟩
    have : |t - t / 300 * 300| ≤ 150 := abs_le.mpr ⟨by omega, by omega⟩
    linarith
  · refine ⟨Int.mul_emod_left _ _, ?_⟩
    have : |t - (t / 300 + 1) * 300| ≤ 150 := abs_le.mpr ⟨by omega, by omega⟩
    linarith

/-! ## Claims -/

/-- C1: for every non-empty identifier list `l` and chunk size `n > 0`,
the chunker partitions `l` into contiguous batches whose in-order
concatenation reproduces `l` exactly, every batch has size at most `n`,
at most one batch is strictly shorter than `n`, and when `n ≥ |l|` the
result is the single batch `l`. -/
theorem chunker_partition {α : Type} (l : List α) (n : ℕ)
    (hne : l ≠ []) (hn : 0 < n) :
    (sliced_requests l n).flatten = l ∧
    (∀ c ∈ sliced_requests l n, c.length ≤ n) ∧
    (sliced_requests l n).countP (fun c => decide (c.length < n)) ≤ 1 ∧
    (l.length ≤ n → sliced_requests l n = [l]) := by
  obtain ⟨h1, h2, h3⟩ := sliced_requests_invariants n hn l hne
  exact ⟨h1, h2, h3, fun hle => sliced_requests_of_le l n hn hle⟩

theorem chunker_partition_witness :
    (["101", "102", "103", "104", "105"] ≠ ([] : List String)) ∧ 0 < 2 ∧
    ((sliced_requests ["101", "102", "103", "104", "105"] 2).flatten =
        ["101", "102", "103", "104", "105"] ∧
      (∀ c ∈ sliced_requests ["101", "102", "103", "104", "105"] 2,
        c.length ≤ 2) ∧
      (sliced_requests ["101", "102", "103", "104", "105"] 2).countP
        (fun c => decide (c.length < 2)) ≤ 1 ∧
      (["101", "102", "103", "104", "105"].length ≤ 2 →
        sliced_requests ["101", "102", "103", "104", "105"] 2 =
          [["101", "102", "103", "104", "105"]])) :=
  ⟨by decide, by decide,
    chunker_partition ["101", "102", "103", "104", "105"] 2 (by decide) (by decide)⟩

/-- C10: every usable value of the reference column is rendered as the
decimal string of the value rounded to a nearest integer (within one half
of the value), so `101.7` becomes `"102"`, not `"101"`. -/
theorem format_rounds_nearest :
    (∀ q : ℚ, formatPoint q = toString (pyRoundHalfEven q) ∧
      |q - (pyRoundHalfEven q : ℚ)| ≤ 1 / 2) ∧
    formatPoint (mkRat 1017 10) = "102" ∧
    formatPoint (mkRat 1017 10) ≠ "101" := by
  refine ⟨fun q => ⟨rfl, ?_⟩, by decide, by decide⟩
  have hd0 : (0 : ℚ) < (q.den : ℚ) := by exact_mod_cast q.den_pos
  have hdne : (q.den : ℚ) ≠ 0 := ne_of_gt hd0
  have hqn : (q.num : ℚ) = q * q.den := (div_eq_iff hdne).mp (Rat.num_div_den q)
  have hf0 : ((q.floor : ℤ) : ℚ) ≤ q := Rat.le_floor.mp le_rfl
  have hf1 : q < ((q.floor + 1 : ℤ) : ℚ) := by
    by_contra hc
    push_neg at hc
    have := Rat.le_floor.mpr hc
    omega
  have hA : q - ((q.floor : ℤ) : ℚ) =
      ((q.num - q.floor * q.den : ℤ) : ℚ) / q.den := by
    rw [eq_div_iff hdne]
    push_cast
    rw [hqn]
    ring
  unfold pyRoundHalfEven
  dsimp only
  split_ifs with h1 h2 h3
  · have h1' : 2 * ((q.num - q.floor * q.den : ℤ) : ℚ) < q.den := by
      exact_mod_cast h1
    rw [abs_of_nonneg (by linarith), hA, div_le_iff₀ hd0]
    linarith
  · have h2' : (q.den : ℚ) < 2 * ((q.num - q.floor * q.den : ℤ) : ℚ) := by
      exact_mod_cast h2
    have hhalf : 1 / 2 ≤ q - ((q.floor : ℤ) : ℚ) := by
      rw [hA, le_div_iff₀ hd0]
      linarith
    have hup : q - ((q.floor + 1 : ℤ) : ℚ) ≤ 0 := by push_cast; push_cast at hf1; linarith
    rw [abs_of_nonpos hup]
    push_cast
    linarith
  · have heq : 2 * ((q.num - q.floor * q.den : ℤ) : ℚ) = q.den := by
      exact_mod_cast le_antisymm (not_lt.mp h2) (not_lt.mp h1)
    have hfr : q - ((q.floor : ℤ) : ℚ) = 1 / 2 := by
      rw [hA, div_eq_iff hdne]
      linarith
    rw [abs_of_nonneg (by linarith), hfr]
  · have heq : 2 * ((q.num - q.floor * q.den : ℤ) : ℚ) = q.den := by
      exact_mod_cast le_antisymm (not_lt.mp h2) (not_lt.mp h1)
    have hfr : q - ((q.floor : ℤ) : ℚ) = 1 / 2 := by
      rw [hA, div_eq_iff hdne]
      linarith
    have hup : q - ((q.floor + 1 : ℤ) : ℚ) = -(1 / 2) := by push_cast; push_cast at hfr; linarith
    rw [hup, abs_neg, abs_of_nonneg (by norm_num : (0 : ℚ) ≤ 1 / 2)]

/-- C4 counterexample: at `now = 2024-01-15T10:04:00Z` with zero
look-back, the resolver yields `10:05:00` (rounding to the nearest
5-minute boundary), while the spec's `round_down` would yield
`10:00:00`. -/
theorem resolver_not_round_down :
    resolveStart (epochOf 2024 1 15 10 4 0) 0 = epochOf 2024 1 15 10 5 0 ∧
    spec_round_down (epochOf 2024 1 15 10 4 0 - 0 * 60) 300 =
      epochOf 2024 1 15 10 0 0 ∧
    resolveStart (epochOf 2024 1 15 10 4 0) 0 ≠
      spec_round_down (epochOf 2024 1 15 10 4 0 - 0 * 60) 300 := by
  refine ⟨by decide, by decide, by decide⟩

/-- C4 (amended): the start instant is `now - lookback` rounded to the
NEAREST 5-minute boundary (pandas `.round("5T")`, within 150 seconds, on
a boundary), not rounded down; when no explicit end is configured every
dispatched query's `end_time` equals its `start_time`; and both are the
second-precision ISO-8601 rendering of the resolved instant. -/
theorem resolver_rounds_nearest (now lb : ℤ) (col : List (Option ℚ))
    (n : ℕ) (clock : ℕ → ℤ) (resp : ℕ → ApiBody) (cfg : String)
    (hc : clock 0 = now) :
    resolveStart now lb % 300 = 0 ∧
    2 * |(now - lb * 60) - resolveStart now lb| ≤ 300 ∧
    ∀ q ∈ (runScript col n clock lb resp cfg).queries,
      q.start_time = isoRender (resolveStart now lb) ∧
      q.end_time = q.start_time := by
  obtain ⟨hm, hb⟩ := pandasRound_near (now - lb * 60)
  refine ⟨hm, hb, ?_⟩
  intro q hq
  have hw := runLoop_window cfg resp (isoRender (resolveStart (clock 0) lb))
    (sliced_requests (requested_points col) n) (initParams clock lb) 0 rfl
    (Or.inl rfl) q hq
  rw [hc] at hw
  exact ⟨hw.1, hw.2.trans hw.1.symm⟩

theorem resolver_rounds_nearest_witness :
    ((fun _ : ℕ => (1705313040 : ℤ)) 0 = 1705313040) ∧
    (resolveStart 1705313040 0 % 300 = 0 ∧
      2 * |(1705313040 - 0 * 60) - resolveStart 1705313040 0| ≤ 300 ∧
      ∀ q ∈ (runScript [] 2 (fun _ : ℕ => (1705313040 : ℤ)) 0
          (fun _ => ApiBody.json []) "settings.cfg").queries,
        q.start_time = isoRender (resolveStart 1705313040 0) ∧
        q.end_time = q.start_time) :=
  ⟨rfl, resolver_rounds_nearest 1705313040 0 [] 2 (fun _ => 1705313040)
    (fun _ => ApiBody.json []) "settings.cfg" rfl⟩

/-- C8 counterexample: the chunker applied to the empty identifier list
yields one empty batch — not an empty batch sequence — and the run then
dispatches one (empty) batch query. -/
theorem chunker_empty_counterexample :
    sliced_requests ([] : List String) 2 = [[]] ∧
    sliced_requests ([] : List String) 2 ≠ [] ∧
    (runScript [] 2 (fun _ => 0) 0
      (fun _ => ApiBody.json [("data", ⟨[], []⟩)]) "settings.cfg").queries.length
      = 1 := by
  refine ⟨by decide, by decide, by decide⟩

/-- C8 (amended): for every chunk size `n > 0` the chunker applied to the
empty identifier list yields the single empty batch `[[]]`
(`np.array_split` always returns one more piece than cut positions), so
the run dispatches exactly one (empty) batch query. -/
theorem chunker_empty_amended (n : ℕ) (hn : 0 < n) (clock : ℕ → ℤ)
    (lb : ℤ) (resp : ℕ → ApiBody) (cfg : String) :
    sliced_requests ([] : List String) n = [[]] ∧
    (runScript [] n clock lb resp cfg).queries.length = 1 := by
  refine ⟨sliced_requests_nil n hn, ?_⟩
  have hq : (runScript [] n clock lb resp cfg).queries =
      (runLoop cfg resp (initParams clock lb) 0
        (sliced_requests (requested_points []) n)).1 := rfl
  have hrp : requested_points ([] : List (Option ℚ)) = [] := rfl
  rw [hq, hrp, sliced_requests_nil n hn, runLoop]
  rcases hfd : fetchData ((mkQuery (loopStep (initParams clock lb) [])).start_time,
      (mkQuery (loopStep (initParams clock lb) [])).end_time) cfg (resp 0) with e | t
  · simp [hfd]
  · simp [hfd, runLoop]

theorem chunker_empty_amended_witness :
    0 < 2 ∧
    (sliced_requests ([] : List String) 2 = [[]] ∧
      (runScript [] 2 (fun _ : ℕ => (0 : ℤ)) 0
        (fun _ => ApiBody.malformed "oops") "settings.cfg").queries.length = 1) :=
  ⟨by decide, chunker_empty_amended 2 (by decide) (fun _ => 0) 0
    (fun _ => ApiBody.malformed "oops") "settings.cfg"⟩

/-- C3: the time window is resolved from the single clock reading taken
before the loop (runs whose clocks agree on that one reading coincide
entirely), and every dispatched query — the `N`-th and the `N+1`-st alike
— carries that same resolved, unmutated `start`/`end` pair. -/
theorem time_window_shared (col : List (Option ℚ)) (n : ℕ)
    (clock clock' : ℕ → ℤ) (lb : ℤ) (resp : ℕ → ApiBody) (cfg : String) :
    (clock 0 = clock' 0 →
      runScript col n clock lb resp cfg = runScript col n clock' lb resp cfg) ∧
    ∀ q ∈ (runScript col n clock lb resp cfg).queries,
      q.start_time = isoRender (resolveStart (clock 0) lb) ∧
      q.end_time = isoRender (resolveStart (clock 0) lb) := by
  constructor
  · intro h
    unfold runScript initParams
    rw [h]
  · intro q hq
    exact runLoop_window cfg resp (isoRender (resolveStart (clock 0) lb))
      (sliced_requests (requested_points col) n) (initParams clock lb) 0 rfl
      (Or.inl rfl) q hq

theorem time_window_shared_witness :
    ((fun _ : ℕ => (0 : ℤ)) 0 = (fun _ : ℕ => (0 : ℤ)) 0) ∧
    ({ start_time := "1970-01-01T00:00:00", end_time := "1970-01-01T00:00:00",
       scada_point := ["101"] } : Query) ∈
      (runScript [some 101] 2 (fun _ : ℕ => (0 : ℤ)) 0
        (fun _ => ApiBody.json [("data", ⟨[], []⟩)]) "settings.cfg").queries ∧
    (runScript [some 101] 2 (fun _ : ℕ => (0 : ℤ)) 0
        (fun _ => ApiBody.json [("data", ⟨[], []⟩)]) "settings.cfg" =
      runScript [some 101] 2 (fun _ : ℕ => (0 : ℤ)) 0
        (fun _ => ApiBody.json [("data", ⟨[], []⟩)]) "settings.cfg") ∧
    (({ start_time := "1970-01-01T00:00:00", end_time := "1970-01-01T00:00:00",
        scada_point := ["101"] } : Query).start_time =
      isoRender (resolveStart 0 0) ∧
     ({ start_time := "1970-01-01T00:00:00", end_time := "1970-01-01T00:00:00",
        scada_point := ["101"] } : Query).end_time =
      isoRender (resolveStart 0 0)) :=
  ⟨rfl, by decide,
    (time_window_shared [some 101] 2 (fun _ => 0) (fun _ => 0) 0
      (fun _ => ApiBody.json [("data", ⟨[], []⟩)]) "settings.cfg").1 rfl,
    (time_window_shared [some 101] 2 (fun _ => 0) (fun _ => 0) 0
      (fun _ => ApiBody.json [("data", ⟨[], []⟩)]) "settings.cfg").2 _ (by decide)⟩

/-- A string decomposed around an infix occurs as an infix of the
character list of the whole. -/
theorem str_infix_of_decomp (x a b : String) :
    x.toList <:+: (a ++ x ++ b).toList := by
  refine ⟨a.toList, b.toList, ?_⟩
  simp [String.toList]

/-- C7: whenever the merged table has timestamps at all, its index is
converted to the fixed target timezone, the UTC-offset suffix is stripped
while the local wall clock is preserved, every timestamp is rendered as
second-precision ISO-8601, and the index is named after the timezone
identifier (on an empty — hence tz-naive — merged index, line 98's
`tz_convert` raises `TypeError` instead); in particular the instant
written `2024-01-15T10:00:00+02:00` (at which `Europe/Tallinn` has offset
+02:00) renders as `2024-01-15T10:00:00`. -/
theorem endresult_index_tallinn :
    (∀ res : List Table, (concatTables res).index ≠ [] →
      endresult res = .ok
        { indexName := "Europe/Tallinn"
          index := (concatTables res).index.map normalizeTs
          cols := (concatTables res).cols }) ∧
    (∀ res : List Table, (concatTables res).index = [] →
      endresult res = .error (.typeError
        "Cannot convert tz-naive timestamps, use tz_localize to localize")) ∧
    (∀ t : ℤ, normalizeTs t = isoRender (t + tallinnOffset t)) ∧
    tallinnOffset (epochOf 2024 1 15 8 0 0) = 7200 ∧
    isoRenderOffset (epochOf 2024 1 15 8 0 0) 7200 =
      "2024-01-15T10:00:00+02:00" ∧
    normalizeTs (epochOf 2024 1 15 8 0 0) = "2024-01-15T10:00:00" := by
  refine ⟨?_, ?_, fun _ => rfl, by decide, by decide, by decide⟩
  · intro res hne
    unfold endresult
    simp only [if_neg hne]
  · intro res he
    unfold endresult
    simp only [if_pos he]

theorem endresult_index_tallinn_witness :
    ((concatTables [(⟨[epochOf 2024 1 15 8 0 0], [("v", [some 1])]⟩ :
      Table)]).index ≠ []) ∧
    endresult [(⟨[epochOf 2024 1 15 8 0 0], [("v", [some 1])]⟩ : Table)] =
      .ok { indexName := "Europe/Tallinn"
            index := (concatTables
              [(⟨[epochOf 2024 1 15 8 0 0], [("v", [some 1])]⟩ :
                Table)]).index.map normalizeTs
            cols := (concatTables
              [(⟨[epochOf 2024 1 15 8 0 0], [("v", [some 1])]⟩ :
                Table)]).cols } :=
  ⟨by decide,
   endresult_index_tallinn.1
    [⟨[epochOf 2024 1 15 8 0 0], [("v", [some 1])]⟩] (by decide)⟩

/-- C5 counterexample: a parsed body lacking the `data` field aborts the
run through a bare `KeyError` whose message carries neither the time
window (nor the raw body); and even the descriptive `ValueError` message
for a malformed body contains no digit at all, hence never the batch
index. -/
theorem dispatch_error_counterexample :
    fetchData ("2024-01-15T10:05:00", "2024-01-15T10:05:00") "settings.cfg"
      (ApiBody.json [("x", ⟨[], []⟩)]) = .error (.keyError "data") ∧
    ¬ ("2024-01-15T10:05:00".toList <:+:
        (errMessage (.keyError "data")).toList) ∧
    (∀ c ∈ (errMessage (.valueError "S" "E" "RAW" "CFG")).toList,
      ¬ c.isDigit) := by
  exact ⟨rfl, by decide, by decide⟩

/-- C5 (amended): a malformed (non-JSON) body aborts the run with a
`ValueError` carrying the time window and the raw response body (but no
batch index); a parsed body without a `data` field aborts it with a bare
`KeyError` carrying only the quoted key; in both cases the first failing
batch ends the loop, with no further batches dispatched. -/
theorem dispatch_error_reporting :
    (∀ s e raw cfg, fetchData (s, e) cfg (.malformed raw) =
        .error (.valueError s e raw cfg) ∧
      s.toList <:+: (errMessage (.valueError s e raw cfg)).toList ∧
      e.toList <:+: (errMessage (.valueError s e raw cfg)).toList ∧
      raw.toList <:+: (errMessage (.valueError s e raw cfg)).toList) ∧
    (∀ s e cfg fields, fields.lookup "data" = none →
      fetchData (s, e) cfg (.json fields) = .error (.keyError "data") ∧
      errMessage (.keyError "data") = squote "data") ∧
    (∀ cfg resp bs p i j, j < List.length bs →
      (∀ m, m < j → parsesOk (resp (i + m)) = true) →
      parsesOk (resp (i + j)) = false →
      (runLoop cfg resp p i bs).1.length = j + 1 ∧
      ∃ er, (runLoop cfg resp p i bs).2 = .error er) := by
  refine ⟨?_, ?_, ?_⟩
  · intro s e raw cfg
    refine ⟨rfl, ?_, ?_, ?_⟩
    · have hd : errMessage (.valueError s e raw cfg) =
          ("Could not receive data from the server at current time: (" ++ sq)
            ++ s ++ (sq ++ ", " ++ squote e ++ ")\n" ++ raw ++
              "\nChange timedelta in " ++ cfg) := by
        simp [errMessage, squote, String.append_assoc]
      rw [hd]
      exact str_infix_of_decomp s _ _
    · have hd : errMessage (.valueError s e raw cfg) =
          ("Could not receive data from the server at current time: (" ++
              squote s ++ ", " ++ sq)
            ++ e ++ (sq ++ ")\n" ++ raw ++ "\nChange timedelta in " ++ cfg) := by
        simp [errMessage, squote, String.append_assoc]
      rw [hd]
      exact str_infix_of_decomp e _ _
    · have hd : errMessage (.valueError s e raw cfg) =
          ("Could not receive data from the server at current time: (" ++
              squote s ++ ", " ++ squote e ++ ")\n")
            ++ raw ++ ("\nChange timedelta in " ++ cfg) := by
        simp [errMessage, squote, String.append_assoc]
      rw [hd]
      exact str_infix_of_decomp raw _ _
  · intro s e cfg fields hl
    exact ⟨by simp [fetchData, hl], rfl⟩
  · intro cfg resp bs p i j hj hok hfail
    exact runLoop_first_error cfg resp bs p i j hj hok hfail

theorem dispatch_error_reporting_witness :
    (([("x", (⟨[], []⟩ : Table))].lookup "data" = none) ∧
      (fetchData ("s", "e") "cfg" (ApiBody.json [("x", ⟨[], []⟩)]) =
          .error (.keyError "data") ∧
        errMessage (.keyError "data") = squote "data")) ∧
    (1 < List.length [([] : List String), []]) ∧
    ((runLoop "cfg"
        (fun k => if k = 0 then ApiBody.json [("data", ⟨[], []⟩)]
          else ApiBody.malformed "bad")
        ⟨"s", none, []⟩ 0 [[], []]).1.length = 1 + 1 ∧
      ∃ er, (runLoop "cfg"
        (fun k => if k = 0 then ApiBody.json [("data", ⟨[], []⟩)]
          else ApiBody.malformed "bad")
        ⟨"s", none, []⟩ 0 [[], []]).2 = .error er) :=
  ⟨⟨by decide,
    dispatch_error_reporting.2.1 "s" "e" "cfg" [("x", ⟨[], []⟩)] (by decide)⟩,
   by decide,
   dispatch_error_reporting.2.2 "cfg"
    (fun k => if k = 0 then ApiBody.json [("data", ⟨[], []⟩)]
      else ApiBody.malformed "bad")
    [[], []] ⟨"s", none, []⟩ 0 1 (by decide)
    (fun m hm => by
      have hm0 : m = 0 := by omega
      subst hm0
      decide)
    (by decide)⟩

/-- C6: when the response for batch `j` is the first that fails to parse,
the run dispatches exactly the batches up to `j` and terminates with the
error: the outcome carries no table, so nothing is merged and nothing is
published. -/
theorem run_aborts_on_batch_failure (col : List (Option ℚ)) (n : ℕ)
    (clock : ℕ → ℤ) (lb : ℤ) (resp : ℕ → ApiBody) (cfg : String) (j : ℕ)
    (hj : j < (sliced_requests (requested_points col) n).length)
    (hok : ∀ m, m < j → parsesOk (resp m) = true)
    (hfail : parsesOk (resp j) = false) :
    (runScript col n clock lb resp cfg).queries.length = j + 1 ∧
    ∃ e, (runScript col n clock lb resp cfg).outcome = .error e := by
  have h := runLoop_first_error cfg resp
    (sliced_requests (requested_points col) n) (initParams clock lb) 0 j hj
    (fun m hm => by simpa using hok m hm) (by simpa using hfail)
  refine ⟨h.1, ?_⟩
  obtain ⟨e, he⟩ := h.2
  refine ⟨e, ?_⟩
  show ((runLoop cfg resp (initParams clock lb) 0
    (sliced_requests (requested_points col) n)).2).bind
      (fun tables => endresult tables) = .error e
  rw [he]
  rfl

theorem run_aborts_witness :
    (1 < (sliced_requests (requested_points
      [some 101, some 102, some 103, some 104, some 105]) 2).length) ∧
    ((runScript [some 101, some 102, some 103, some 104, some 105] 2
        (fun _ : ℕ => (0 : ℤ)) 0
        (fun k => if k = 1 then ApiBody.malformed "bad"
          else ApiBody.json [("data", ⟨[], []⟩)]) "settings.cfg").queries.length
        = 1 + 1 ∧
      ∃ e, (runScript [some 101, some 102, some 103, some 104, some 105] 2
        (fun _ : ℕ => (0 : ℤ)) 0
        (fun k => if k = 1 then ApiBody.malformed "bad"
          else ApiBody.json [("data", ⟨[], []⟩)]) "settings.cfg").outcome
        = .error e) :=
  ⟨by decide,
   run_aborts_on_batch_failure
    [some 101, some 102, some 103, some 104, some 105] 2 (fun _ => 0) 0
    (fun k => if k = 1 then ApiBody.malformed "bad"
      else ApiBody.json [("data", ⟨[], []⟩)]) "settings.cfg" 1 (by decide)
    (fun m hm => by
      have hm0 : m = 0 := by omega
      subst hm0
      decide)
    (by decide)⟩

/-- C9 counterexample: a reference column whose rows all lack a value
yields the empty identifier list and the extractor does not fail — the
run proceeds past it and dispatches an empty-batch query; with an empty
`data` payload the run only dies much later, at line 98's index
conversion, with a pandas `TypeError`, never with an `EmptyInputError`
(no such error exists in the code). -/
theorem extractor_empty_counterexample :
    requested_points [none, none] = [] ∧
    (runScript [none, none] 2 (fun _ : ℕ => (0 : ℤ)) 0
      (fun _ => ApiBody.json [("data", ⟨[], []⟩)])
      "settings.cfg").queries.length = 1 ∧
    (runScript [none, none] 2 (fun _ : ℕ => (0 : ℤ)) 0
      (fun _ => ApiBody.json [("data", ⟨[], []⟩)])
      "settings.cfg").outcome = .error (.typeError
        "Cannot convert tz-naive timestamps, use tz_localize to localize") :=
  ⟨rfl, by decide, rfl⟩

/-- C9 (amended): when the reference column has zero usable values the
extractor raises no error — it yields the empty identifier list and the
run proceeds past it, dispatching exactly one (empty) batch query; the
outcome is then whatever merging the single response table gives, and
when that table is empty the run crashes at line 98's index conversion
with a pandas `TypeError` — not an `EmptyInputError`. -/
theorem extractor_empty_proceeds (col : List (Option ℚ))
    (h : ∀ v ∈ col, v = none) (n : ℕ) (hn : 0 < n) (clock : ℕ → ℤ) (lb : ℤ)
    (resp : ℕ → ApiBody) (cfg : String) (t : Table)
    (hresp : resp 0 = ApiBody.json [("data", t)]) :
    requested_points col = [] ∧
    (runScript col n clock lb resp cfg).queries.length = 1 ∧
    (runScript col n clock lb resp cfg).outcome = endresult [t] ∧
    (t.index = [] → (runScript col n clock lb resp cfg).outcome =
      .error (.typeError
        "Cannot convert tz-naive timestamps, use tz_localize to localize")) := by
  have hrp : requested_points col = [] := by
    unfold requested_points
    have hfm : col.filterMap id = [] :=
      List.filterMap_eq_nil_iff.mpr (fun a ha => h a ha)
    rw [hfm]
    rfl
  have hfd : fetchData ((mkQuery (loopStep (initParams clock lb) [])).start_time,
      (mkQuery (loopStep (initParams clock lb) [])).end_time) cfg (resp 0) =
      .ok t := by
    rw [hresp]
    rfl
  have hloop : runLoop cfg resp (initParams clock lb) 0 [[]] =
      ([mkQuery (loopStep (initParams clock lb) [])], .ok [t]) := by
    rw [runLoop, hfd]
    rfl
  have hqs : (runScript col n clock lb resp cfg).queries =
      (runLoop cfg resp (initParams clock lb) 0
        (sliced_requests (requested_points col) n)).1 := rfl
  have hout : (runScript col n clock lb resp cfg).outcome =
      ((runLoop cfg resp (initParams clock lb) 0
        (sliced_requests (requested_points col) n)).2).bind
          (fun ts => endresult ts) := rfl
  rw [hrp, sliced_requests_nil n hn, hloop] at hqs hout
  have hres : (runScript col n clock lb resp cfg).outcome = endresult [t] :=
    hout.trans rfl
  refine ⟨hrp, by rw [hqs]; rfl, hres, ?_⟩
  intro ht
  have hidx : (concatTables [t]).index = [] := by
    show unionIndex [t] = []
    simp [unionIndex, ht]
  rw [hres]
  unfold endresult
  simp only [hidx]
  rfl

theorem extractor_empty_proceeds_witness :
    (∀ v ∈ [(none : Option ℚ)], v = none) ∧ 0 < 2 ∧
    ((fun _ : ℕ => ApiBody.json [("data", (⟨[], []⟩ : Table))]) 0 =
      ApiBody.json [("data", (⟨[], []⟩ : Table))]) ∧
    (requested_points [none] = [] ∧
      (runScript [none] 2 (fun _ : ℕ => (0 : ℤ)) 0
        (fun _ => ApiBody.json [("data", ⟨[], []⟩)])
        "settings.cfg").queries.length = 1 ∧
      (runScript [none] 2 (fun _ : ℕ => (0 : ℤ)) 0
        (fun _ => ApiBody.json [("data", ⟨[], []⟩)]) "settings.cfg").outcome =
        endresult [⟨[], []⟩] ∧
      ((⟨[], []⟩ : Table).index = [] →
        (runScript [none] 2 (fun _ : ℕ => (0 : ℤ)) 0
          (fun _ => ApiBody.json [("data", ⟨[], []⟩)]) "settings.cfg").outcome =
          .error (.typeError
            "Cannot convert tz-naive timestamps, use tz_localize to localize"))) :=
  ⟨by decide, by decide, rfl,
   extractor_empty_proceeds [none] (by decide) 2 (by decide) (fun _ => 0) 0
    (fun _ => ApiBody.json [("data", ⟨[], []⟩)]) "settings.cfg" ⟨[], []⟩ rfl⟩

/-- C2: the column-wise merge of the per-batch tables yields a table whose
row index is exactly the union of the input row indexes, whose column
count is the sum of the inputs' column counts with the columns kept in
batch order, and in which a column of table `t` keeps every one of `t`'s
values at `t`'s own timestamps while showing a missing cell (`none`) at
every union timestamp `t` lacks — no row is dropped and no error is
raised. -/
theorem concat_outer_merge (ts : List Table)
    (hnd : ∀ t ∈ ts, t.index.Nodup) :
    (∀ k, k ∈ (concatTables ts).index ↔ ∃ t ∈ ts, k ∈ t.index) ∧
    (concatTables ts).cols.length = (ts.map fun t => t.cols.length).sum ∧
    (concatTables ts).cols.map Prod.fst =
      ts.flatMap (fun t => t.cols.map Prod.fst) ∧
    ∀ t ∈ ts, ∀ c ∈ t.cols,
      ((c.1, (concatTables ts).index.map fun k => cellAt t.index c.2 k) ∈
        (concatTables ts).cols) ∧
      (∀ k, k ∉ t.index → cellAt t.index c.2 k = none) ∧
      ∀ (i : ℕ) (h : i < t.index.length),
        cellAt t.index c.2 (t.index.get ⟨i, h⟩) = (c.2.get? i).join := by
  refine ⟨?_, ?_, ?_, ?_⟩
  · intro k
    exact mem_unionIndex ts k
  · show (ts.flatMap _).length = _
    rw [List.length_flatMap]
    congr 1
    apply List.map_congr_left
    intro t _
    exact List.length_map _ _
  · show (ts.flatMap _).map Prod.fst = _
    rw [List.map_flatMap]
    have hfun : (fun a : Table =>
        List.map Prod.fst (List.map (fun c =>
          (c.1, List.map (fun k => cellAt a.index c.2 k) (unionIndex ts))) a.cols))
        = fun t : Table => List.map Prod.fst t.cols := by
      funext a
      rw [List.map_map]
      apply List.map_congr_left
      intro c _
      rfl
    rw [hfun]
  · intro t ht c hc
    refine ⟨?_, fun k hk => cellAt_not_mem t.index c.2 k hk,
      fun i h => cellAt_get t.index c.2 (hnd t ht) i h⟩
    show _ ∈ ts.flatMap _
    rw [List.mem_flatMap]
    exact ⟨t, ht, List.mem_map.mpr ⟨c, hc, rfl⟩⟩

theorem concat_outer_merge_witness :
    (∀ t ∈ [(⟨[0, 1], [("a", [some 1, some 2])]⟩ : Table),
            (⟨[1, 2], [("b", [some 3, some 4])]⟩ : Table)], t.index.Nodup) ∧
    ((∀ k, k ∈ (concatTables [(⟨[0, 1], [("a", [some 1, some 2])]⟩ : Table),
          (⟨[1, 2], [("b", [some 3, some 4])]⟩ : Table)]).index ↔
        ∃ t ∈ [(⟨[0, 1], [("a", [some 1, some 2])]⟩ : Table),
          (⟨[1, 2], [("b", [some 3, some 4])]⟩ : Table)], k ∈ t.index) ∧
      (concatTables [(⟨[0, 1], [("a", [some 1, some 2])]⟩ : Table),
          (⟨[1, 2], [("b", [some 3, some 4])]⟩ : Table)]).cols.length =
        ([(⟨[0, 1], [("a", [some 1, some 2])]⟩ : Table),
          (⟨[1, 2], [("b", [some 3, some 4])]⟩ : Table)].map
            fun t => t.cols.length).sum ∧
      (concatTables [(⟨[0, 1], [("a", [some 1, some 2])]⟩ : Table),
          (⟨[1, 2], [("b", [some 3, some 4])]⟩ : Table)]).cols.map Prod.fst =
        [(⟨[0, 1], [("a", [some 1, some 2])]⟩ : Table),
          (⟨[1, 2], [("b", [some 3, some 4])]⟩ : Table)].flatMap
            (fun t => t.cols.map Prod.fst) ∧
      ∀ t ∈ [(⟨[0, 1], [("a", [some 1, some 2])]⟩ : Table),
          (⟨[1, 2], [("b", [some 3, some 4])]⟩ : Table)], ∀ c ∈ t.cols,
        ((c.1, (concatTables [(⟨[0, 1], [("a", [some 1, some 2])]⟩ : Table),
            (⟨[1, 2], [("b", [some 3, some 4])]⟩ : Table)]).index.map
              fun k => cellAt t.index c.2 k) ∈
          (concatTables [(⟨[0, 1], [("a", [some 1, some 2])]⟩ : Table),
            (⟨[1, 2], [("b", [some 3, some 4])]⟩ : Table)]).cols) ∧
        (∀ k, k ∉ t.index → cellAt t.index c.2 k = none) ∧
        ∀ (i : ℕ) (h : i < t.index.length),
          cellAt t.index c.2 (t.index.get ⟨i, h⟩) = (c.2.get? i).join) :=
  ⟨by decide,
   concat_outer_merge [⟨[0, 1], [("a", [some 1, some 2])]⟩,
     ⟨[1, 2], [("b", [some 3, some 4])]⟩] (by decide)⟩

end GetData
